import Mathlib

/-!
Verification development for the Yes24 book dashboard (`dashboard.py`).

The data-preparation layer (`load_data`: price cleaning, numeric coercion,
date parsing, year-month derivation) and the aggregation helpers
(monthly counts, top-N by sales index, keyword filter, correlation matrix,
price bucketing) are embedded as executable Lean definitions, and the
documented contracts are proved or refuted against them.

Library behaviour that the script relies on (pandas `to_numeric`,
`to_datetime`, `str.contains`, `nlargest`, `DataFrame.corr`,
streamlit's `cache_data`) is embedded on the fragment the script
exercises; each such definition documents the fragment it models.
-/

namespace BookDash

/-! ## Character-level parsing helpers -/

/-- Numeric value of a list of decimal digit characters (most significant first). -/
def digitsVal (cs : List Char) : Nat :=
  cs.foldl (fun a c => a * 10 + (c.toNat - 48)) 0

/-- Python `int(...)` on an (already separator-stripped) string:
an optional sign followed by a nonempty run of decimal digits.
Whitespace stripping and underscore grouping, which the data never uses,
are elided. Returns `none` where `int` raises `ValueError`. -/
def parseIntPy (cs : List Char) : Option Int :=
  match cs with
  | '-' :: rest =>
    if !rest.isEmpty && rest.all Char.isDigit then some (-(digitsVal rest : Int)) else none
  | '+' :: rest =>
    if !rest.isEmpty && rest.all Char.isDigit then some ((digitsVal rest : Int)) else none
  | _ =>
    if !cs.isEmpty && cs.all Char.isDigit then some ((digitsVal cs : Int)) else none

/-- Unsigned decimal literal with optional fractional part: `12`, `12.`, `.5`, `1.25`.
This is the fragment of float syntax the CSV numeric cells use. -/
def parseUnsigned (cs : List Char) : Option ℚ :=
  let ip := cs.takeWhile (fun c => c ≠ '.')
  let rest := cs.dropWhile (fun c => c ≠ '.')
  match rest with
  | [] =>
    if !ip.isEmpty && ip.all Char.isDigit then some ((digitsVal ip : ℚ)) else none
  | _ :: fp =>
    if (!ip.isEmpty || !fp.isEmpty) && ip.all Char.isDigit && fp.all Char.isDigit then
      some ((digitsVal ip : ℚ) + (digitsVal fp : ℚ) / (10 : ℚ) ^ fp.length)
    else none

/-- Signed decimal literal. -/
def parseSigned (cs : List Char) : Option ℚ :=
  match cs with
  | '-' :: rest => (parseUnsigned rest).map Neg.neg
  | '+' :: rest => parseUnsigned rest
  | _ => parseUnsigned cs

/-- pandas `pd.to_numeric(x, errors='coerce')` on a string cell, modelled on the
plain decimal fragment the data uses (no scientific notation, no thousands
separators); unparsable strings coerce to missing (`none`), never raise. -/
def parseFloatPy (s : String) : Option ℚ :=
  parseSigned s.toList

/-- Numeric coercion of a raw CSV cell (`none` = the cell was empty / NaN). -/
def coerceNum (c : Option String) : Option ℚ :=
  c.bind parseFloatPy

/-! ## Price cleaning (`clean_price`, dashboard.py lines 27-30) -/

/-- The two `replace` calls in `clean_price`: `price.replace(',', '').replace('원', '')`.
Both patterns are single characters, so the sequential replaces delete every
occurrence of each character. -/
def stripPriceMarks (s : String) : List Char :=
  s.toList.filter (fun c => !(c == ',' || c == '원'))

/-- A raw Price cell as pandas hands it to `clean_price`:
missing (NaN), an already-numeric value, or a string. -/
def PriceCell : Type := Option (Int ⊕ String)

/-- `clean_price` (dashboard.py lines 27-30): strings are stripped of commas and
the `원` marker and passed to `int(...)`, which raises (here: `.error ()`) on
non-numeric residue; non-strings (numbers, NaN) pass through unchanged. -/
def clean_price : Option (Int ⊕ String) → Except Unit (Option Int)
  | none => .ok none
  | some (.inl n) => .ok (some n)
  | some (.inr s) =>
    match parseIntPy (stripPriceMarks s) with
    | some n => .ok (some n)
    | none => .error ()

/-! ## Date parsing (`parse_date`, dashboard.py lines 38-42) -/

/-- A calendar date. -/
structure Date where
  year : Nat
  month : Nat
  day : Nat
deriving DecidableEq, Repr

/-- Read a nonempty run of leading digits, returning the value and the rest. -/
def readDigits (cs : List Char) : Option (Nat × List Char) :=
  let ds := cs.takeWhile Char.isDigit
  let rest := cs.dropWhile Char.isDigit
  if ds.isEmpty then none else some (digitsVal ds, rest)

/-- Strict parse against the `'%Y년 %m월'` format: digits, `년`, a space,
digits (a month 1-12), `월`, end of string; the day component defaults to 1. -/
def parseDateStrict (s : String) : Option Date :=
  match readDigits s.toList with
  | some (y, '년' :: ' ' :: rest) =>
    match readDigits rest with
    | some (m, ['월']) => if 1 ≤ m ∧ m ≤ 12 then some ⟨y, m, 1⟩ else none
    | _ => none
  | _ => none

/-- The fallback `pd.to_datetime(x, errors='coerce')` general inference,
modelled on the ISO `YYYY-MM-DD` fragment; anything else coerces to missing. -/
def parseDateISO (s : String) : Option Date :=
  match readDigits s.toList with
  | some (y, '-' :: r1) =>
    match readDigits r1 with
    | some (m, '-' :: r2) =>
      match readDigits r2 with
      | some (d, []) =>
        if 1 ≤ m ∧ m ≤ 12 ∧ 1 ≤ d ∧ d ≤ 31 then some ⟨y, m, d⟩ else none
      | _ => none
    | _ => none
  | _ => none

/-- `parse_date` (dashboard.py lines 38-42): try the strict localized format,
fall back to general inference with `errors='coerce'`; a missing cell stays
missing and total failure yields missing, never an exception. -/
def parse_date (v : Option String) : Option Date :=
  v.bind fun s => (parseDateStrict s).orElse fun _ => parseDateISO s

/-! ## YearMonth derivation (dashboard.py line 45) -/

/-- Zero-pad a month number to two digits, as `Period('M')` renders it. -/
def pad2 (n : Nat) : String :=
  if n < 10 then "0" ++ toString n else toString n

/-- `df['Publishing Date'].dt.to_period('M').astype(str)` for a single cell:
a present date renders as `"YYYY-MM"`, while a missing date (NaT) passes
through `to_period` as NaT and `astype(str)` renders it as the literal
string `"NaT"` — it does not stay missing. -/
def toYearMonth : Option Date → String
  | some d => toString d.year ++ "-" ++ pad2 d.month
  | none => "NaT"

/-! ## The prepared table (`load_data`, dashboard.py lines 18-47) -/

/-- One raw CSV row as `pd.read_csv` delivers it to the preprocessing code. -/
structure RawRow where
  title : String
  subtitle : Option String
  author : String
  publisher : String
  price : Option (Int ⊕ String)
  rating : Option String
  reviewCount : Option String
  salesIndex : Option String
  pubDate : Option String
deriving DecidableEq, Repr

/-- One row of the prepared table. `priceRange` is the derived price-bucket
column; `load_data` itself never creates it (it stays `none`), only the
Price & Rating view's `pd.cut` assignment fills it. -/
structure Row where
  title : String
  subtitle : Option String
  author : String
  publisher : String
  price : Option Int
  rating : Option ℚ
  reviewCount : Option ℚ
  salesIndex : ℚ
  pubDate : Option Date
  yearMonth : String
  priceRange : Option String
deriving DecidableEq, Repr

/-- The per-row content of the preprocessing in `load_data` (lines 32-45),
given the already-cleaned price: Rating and Review Count are coerced with
missing on failure, Sales Index is coerced and then zero-filled
(`.fillna(0)`), the date is parsed leniently, and YearMonth is derived. -/
def mkPrepared (r : RawRow) (p : Option Int) : Row :=
  { title := r.title
    subtitle := r.subtitle
    author := r.author
    publisher := r.publisher
    price := p
    rating := coerceNum r.rating
    reviewCount := coerceNum r.reviewCount
    salesIndex := (coerceNum r.salesIndex).getD 0
    pubDate := parse_date r.pubDate
    yearMonth := toYearMonth (parse_date r.pubDate)
    priceRange := none }

/-- Preprocessing of a single row. The price cleaning can raise
(propagating out of `load_data`); every other step is total. -/
def prepRow (r : RawRow) : Except Unit Row :=
  match clean_price r.price with
  | .error e => .error e
  | .ok p => .ok (mkPrepared r p)

/-- `load_data` (dashboard.py lines 18-47) after the file-exists check:
applies the column preprocessing to every row; an uncaught `clean_price`
exception on any row aborts the whole load. -/
def load_data : List RawRow → Except Unit (List Row)
  | [] => .ok []
  | r :: rs =>
    match prepRow r, load_data rs with
    | .ok row, .ok rows => .ok (row :: rows)
    | .error e, _ => .error e
    | .ok _, .error e => .error e

/-- Extract the table from a successful load (used to state closed facts
about concrete loads). -/
def tableOf (e : Except Unit (List Row)) : List Row :=
  match e with
  | .ok t => t
  | .error _ => []

/-- A default prepared row (used to extract the row from a concrete
successful `prepRow`). -/
def defaultRow : Row :=
  { title := ""
    subtitle := none
    author := ""
    publisher := ""
    price := none
    rating := none
    reviewCount := none
    salesIndex := 0
    pubDate := none
    yearMonth := "NaT"
    priceRange := none }

/-- Extract the row from a successful `prepRow`. -/
def rowOf (e : Except Unit Row) : Row :=
  match e with
  | .ok r => r
  | .error _ => defaultRow

/-! ## Aggregation helpers -/

/-- pandas `Series.mean()` over values with possible missing entries:
missing entries are skipped entirely (they enter neither the numerator nor
the denominator); an all-missing series has a missing mean. -/
def meanOfOpt (xs : List (Option ℚ)) : Option ℚ :=
  let p := xs.filterMap id
  if p.isEmpty then none else some (p.sum / (p.length : ℚ))

/-- Mean of the prepared table's Rating column (skips missing ratings). -/
def ratingMean (t : List Row) : Option ℚ :=
  meanOfOpt (t.map (·.rating))

/-- Mean of the prepared table's Review Count column (skips missing entries). -/
def reviewMean (t : List Row) : Option ℚ :=
  meanOfOpt (t.map (·.reviewCount))

/-- `df.groupby('YearMonth').size()` (dashboard.py line 105): one entry per
distinct YearMonth key with its row count, keys in ascending string order.
YearMonth is a plain string column, so every row participates (groupby's
dropping of missing keys never fires — the column holds `"NaT"`, not NaN,
for unparsable dates). -/
def monthly_counts (t : List Row) : List (String × Nat) :=
  (List.insertionSort (fun a b : String => a ≤ b) (t.map (·.yearMonth)).dedup).map
    fun k => (k, (t.filter (fun r => r.yearMonth = k)).length)

/-! ## Top-N by Sales Index (dashboard.py line 123) -/

/-- Ordering used by `df.nlargest(n, 'Sales Index')` with the default
`keep='first'` on index-tagged rows: strictly larger Sales Index first, and
among equal Sales Index values the row that appears earlier in the table
(smaller original position) first. -/
def nlargestRel (a b : Nat × Row) : Prop :=
  b.2.salesIndex < a.2.salesIndex ∨ (a.2.salesIndex = b.2.salesIndex ∧ a.1 ≤ b.1)

instance : DecidableRel nlargestRel :=
  fun _a _b => inferInstanceAs (Decidable (_ ∨ _))

instance : IsTotal (Nat × Row) nlargestRel where
  total a b := by
    rcases lt_trichotomy a.2.salesIndex b.2.salesIndex with h | h | h
    · exact Or.inr (Or.inl h)
    · rcases Nat.le_total a.1 b.1 with hi | hi
      · exact Or.inl (Or.inr ⟨h, hi⟩)
      · exact Or.inr (Or.inr ⟨h.symm, hi⟩)
    · exact Or.inl (Or.inl h)

instance : IsTrans (Nat × Row) nlargestRel where
  trans _a _b _c hab hbc := by
    rcases hab with hab | ⟨hab, hiab⟩
    · rcases hbc with hbc | ⟨hbc, _⟩
      · exact Or.inl (hbc.trans hab)
      · exact Or.inl (hbc ▸ hab)
    · rcases hbc with hbc | ⟨hbc, hibc⟩
      · exact Or.inl (hab ▸ hbc)
      · exact Or.inr ⟨hab.trans hbc, hiab.trans hibc⟩

/-- `df.nlargest(20, 'Sales Index')` on position-tagged rows: a stable
descending selection of the first 20 rows of the sorted order. -/
def top_salesIdx (t : List Row) : List (Nat × Row) :=
  (List.insertionSort nlargestRel t.enum).take 20

/-- `top_sales = df.nlargest(20, 'Sales Index')` (dashboard.py line 123). -/
def top_sales (t : List Row) : List Row :=
  (top_salesIdx t).map Prod.snd

/-! ## Keyword search (dashboard.py lines 258-263) -/

/-- The special (meta) characters of Python regular expressions; a keyword
containing any of them is interpreted by `str.contains` as regex syntax
(possibly even raising `re.error`), not as literal text. -/
def regexMeta : List Char :=
  ['.', '^', '$', '*', '+', '?', '\x7b', '\x7d', '[', ']', '\\', '|', '(', ')']

/-- A token of the regular-expression fragment modelled here: `'.'` is the
any-character metacharacter and every other character matches literally.
This models Python `re` faithfully exactly for patterns whose only
metacharacter (if any) is `'.'`; keywords containing other `regexMeta`
characters are outside the modelled fragment (the program would interpret
them as regex operators or raise `re.error`), and every theorem below that
relies on this matcher restricts its keyword accordingly. -/
inductive RTok where
  | lit (c : Char)
  | dot
deriving DecidableEq, Repr

/-- Compile a keyword of the modelled fragment into regex tokens. -/
def compileKw (cs : List Char) : List RTok :=
  cs.map fun c => if c = '.' then RTok.dot else RTok.lit c

/-- Whether one token matches one character. -/
def tokMatch : RTok → Char → Bool
  | .lit d, c => d == c
  | .dot, _ => true

/-- Whether the pattern matches a prefix of the text. -/
def rmatchHere : List RTok → List Char → Bool
  | [], _ => true
  | _ :: _, [] => false
  | t :: ts, c :: cs => tokMatch t c && rmatchHere ts cs

/-- Python `re.search` for this fragment: the pattern matches starting at
some position of the text. -/
def rsearch : List RTok → List Char → Bool
  | p, [] => rmatchHere p []
  | p, c :: cs => rmatchHere p (c :: cs) || rsearch p cs

/-- Case folding of both sides, modelling `case=False` matching. -/
def lowerChars (cs : List Char) : List Char :=
  cs.map Char.toLower

/-- `Series.str.contains(keyword, case=False)` for one cell: a
case-insensitive regular-expression search of the keyword in the text.
Faithful to the program on keywords whose only metacharacter is `'.'`
(see `compileKw`); theorems about matching only ever instantiate it there. -/
def strContains (text kw : String) : Bool :=
  rsearch (compileKw (lowerChars kw.toList)) (lowerChars text.toList)

/-- Literal-prefix test on character lists. -/
def startsWithChars : List Char → List Char → Bool
  | [], _ => true
  | _ :: _, [] => false
  | a :: as, b :: bs => a == b && startsWithChars as bs

/-- Literal contiguous-substring test on character lists. -/
def isSubChars : List Char → List Char → Bool
  | n, [] => startsWithChars n []
  | n, c :: cs => startsWithChars n (c :: cs) || isSubChars n cs

/-- Case-insensitive literal substring containment — the spec's wording of
what the keyword filter matches. -/
def containsLit (text kw : String) : Bool :=
  isSubChars (lowerChars kw.toList) (lowerChars text.toList)

/-- `keyword_filter` (dashboard.py lines 258-263): the empty keyword (falsy
in `if keyword:`) returns the table unfiltered; otherwise a row is kept when
the keyword matches Title or the missing-as-empty Subtitle
(`df['Subtitle'].fillna('')`), case-insensitively. -/
def keyword_filter (t : List Row) (kw : String) : List Row :=
  if kw = "" then t
  else t.filter fun r => strContains r.title kw || strContains (r.subtitle.getD "") kw

/-! ## Correlation matrix (dashboard.py line 230) -/

/-- The four numeric columns fed to `df[['Price', 'Rating', 'Review Count',
'Sales Index']].corr()`. -/
inductive Col where
  | price
  | rating
  | reviewCount
  | salesIndex
deriving DecidableEq, Repr

/-- The (possibly missing) value of a column in a prepared row. -/
def colVal (c : Col) (r : Row) : Option ℚ :=
  match c with
  | .price => r.price.map fun n => (n : ℚ)
  | .rating => r.rating
  | .reviewCount => r.reviewCount
  | .salesIndex => some r.salesIndex

/-- The pairwise-complete observations for two columns: each row where both
columns are present contributes its pair of values, rows missing either
column are skipped (this is how pandas `nancorr` masks each pair of
columns independently). -/
def pairsOf (t : List Row) (c₁ c₂ : Col) : List (ℚ × ℚ) :=
  t.filterMap fun r =>
    match colVal c₁ r, colVal c₂ r with
    | some a, some b => some (a, b)
    | _, _ => none

/-- Mean of a rational list (0 on the empty list, matching the use below
where the empty case is screened off by a zero divisor). -/
def meanOf (xs : List ℚ) : ℚ :=
  xs.sum / (xs.length : ℚ)

/-- Centered cross-product sum of the paired observations. -/
def sxyOf (ps : List (ℚ × ℚ)) : ℚ :=
  (ps.map fun p => (p.1 - meanOf (ps.map Prod.fst)) * (p.2 - meanOf (ps.map Prod.snd))).sum

/-- Centered sum of squares of the first components. -/
def sxxOf (ps : List (ℚ × ℚ)) : ℚ :=
  (ps.map fun p => (p.1 - meanOf (ps.map Prod.fst)) ^ 2).sum

/-- Centered sum of squares of the second components. -/
def syyOf (ps : List (ℚ × ℚ)) : ℚ :=
  (ps.map fun p => (p.2 - meanOf (ps.map Prod.snd)) ^ 2).sum

/-- Pearson correlation as pandas `nancorr` computes one matrix cell:
`sumxy / sqrt(sumxx * sumyy)` over the pairwise-complete observations, and a
missing value (NaN) when the divisor is zero (constant or empty columns). -/
noncomputable def pearson (ps : List (ℚ × ℚ)) : Option ℝ :=
  if sxxOf ps * syyOf ps = 0 then none
  else some ((sxyOf ps : ℝ) / Real.sqrt ((sxxOf ps : ℝ) * (syyOf ps : ℝ)))

/-- One entry of `df[['Price', 'Rating', 'Review Count', 'Sales Index']].corr()`
(dashboard.py line 230). -/
noncomputable def corrEntry (t : List Row) (c₁ c₂ : Col) : Option ℝ :=
  pearson (pairsOf t c₁ c₂)

/-- Centered sum of squares of one column's present values (zero exactly for
an empty or constant column — the zero-variance case). -/
def colSS (t : List Row) (c : Col) : ℚ :=
  sxxOf (pairsOf t c c)

/-- The spec's wording of pairwise completeness: the rows where both paired
columns are present. -/
def bothPresentRows (t : List Row) (c₁ c₂ : Col) : List Row :=
  t.filter fun r => (colVal c₁ r).isSome && (colVal c₂ r).isSome

/-- Pearson correlation computed, as the spec words it, over the rows where
both paired columns are present. -/
noncomputable def pearsonPairwiseComplete (t : List Row) (c₁ c₂ : Col) : Option ℝ :=
  pearson ((bothPresentRows t c₁ c₂).map fun r => ((colVal c₁ r).getD 0, (colVal c₂ r).getD 0))

/-! ## View dispatch and the shared cached table (dashboard.py lines 18, 49,
208-247) -/

/-- The five navigation targets of the sidebar radio control. -/
inductive View where
  | home
  | sales
  | publisher
  | priceRating
  | search
deriving DecidableEq, Repr

/-- `pd.cut(df['Price'], bins=[0, 15000, 25000, 35000, 50000, 100000],
labels=[...])` for one cell: right-closed intervals, values outside every
bin (and missing prices) get a missing category. -/
def priceRangeLabel (p : Option Int) : Option String :=
  match p with
  | none => none
  | some v =>
    if 0 < v ∧ v ≤ 15000 then some "~1.5만"
    else if 15000 < v ∧ v ≤ 25000 then some "1.5~2.5만"
    else if 25000 < v ∧ v ≤ 35000 then some "2.5~3.5만"
    else if 35000 < v ∧ v ≤ 50000 then some "3.5~5.0만"
    else if 50000 < v ∧ v ≤ 100000 then some "5.0만+"
    else none

/-- What one script run does to its own dataframe copy: only the
Price & Rating view assigns the derived `Price Range` column
(dashboard.py lines 240-241); every other view leaves the frame as loaded. -/
def runView (v : View) (df : List Row) : List Row :=
  match v with
  | .priceRating => df.map fun r => { r with priceRange := priceRangeLabel r.price }
  | _ => df

/-- The `st.cache_data` slot for `load_data`'s result. -/
structure Env where
  cacheSlot : Option (List Row)

/-- One full script rerun (one user interaction): `load_data` is served from
the cache when populated — and `st.cache_data` hands the script a fresh copy
of the cached value, so in-place column assignments inside a run never write
back to the slot — otherwise the CSV is loaded and the result cached. The
run then executes the selected view on its copy. -/
def scriptRun (raw : List RawRow) (env : Env) (v : View) : Env × Except Unit (List Row) :=
  match env.cacheSlot with
  | some t => (⟨some t⟩, .ok (runView v t))
  | none =>
    match load_data raw with
    | .ok t => (⟨some t⟩, .ok (runView v t))
    | .error e => (⟨none⟩, .error e)

/-! ## Concrete test rows -/

/-- A fully well-formed raw row. -/
def rawGood : RawRow :=
  { title := "Clean Code"
    subtitle := some "with AI"
    author := "RCM"
    publisher := "PubA"
    price := some (.inr "15,000원")
    rating := some "9.5"
    reviewCount := some "120"
    salesIndex := some "5400"
    pubDate := some "2023년 05월" }

/-- A raw row whose Price string has non-numeric residue after stripping the
separators and the currency marker, so `int(...)` raises. -/
def rawBadPrice : RawRow :=
  { rawGood with title := "Bad Price", price := some (.inr "가격미정") }

/-- A raw row whose Publishing Date parses under neither format. -/
def rawBadDate : RawRow :=
  { rawGood with title := "Bad Date", pubDate := some "garbage" }

/-- A raw row with an out-of-range numeric Rating. -/
def rawBigRating : RawRow :=
  { rawGood with title := "Big Rating", rating := some "12" }

/-- A raw row whose Rating, Review Count and Sales Index are all
unparsable strings. -/
def rawNoNums : RawRow :=
  { rawGood with
    title := "No Nums"
    rating := some "없음"
    reviewCount := none
    salesIndex := some "N/A"
    pubDate := none }

/-- A prepared row whose Title is `"axc"` (regex-vs-literal test). -/
def rowAxc : Row :=
  { defaultRow with title := "axc" }

/-- A prepared row whose Title is `"b"` (keyword-filter witness). -/
def rowB : Row :=
  { defaultRow with title := "b" }

/-- A two-row prepared table whose Price column has distinct present values
(non-zero variance). -/
def corrTable : List Row :=
  [{ defaultRow with title := "p0", price := some 0 },
   { defaultRow with title := "p2", price := some 2 }]

/-! ## Helper lemmas about the loader -/

theorem prepRow_eq_ok {r : RawRow} {row : Row} :
    prepRow r = .ok row ↔ ∃ p, clean_price r.price = .ok p ∧ row = mkPrepared r p := by
  unfold prepRow
  cases h : clean_price r.price <;> simp [h, eq_comm]

theorem prepRow_error_of {r : RawRow} (h : clean_price r.price = .error ()) :
    prepRow r = .error () := by
  simp [prepRow, h]

theorem rating_of_prepRow {r : RawRow} {row : Row} (h : prepRow r = .ok row) :
    row.rating = coerceNum r.rating := by
  rcases prepRow_eq_ok.mp h with ⟨p, _, rfl⟩
  rfl

theorem reviewCount_of_prepRow {r : RawRow} {row : Row} (h : prepRow r = .ok row) :
    row.reviewCount = coerceNum r.reviewCount := by
  rcases prepRow_eq_ok.mp h with ⟨p, _, rfl⟩
  rfl

theorem salesIndex_of_prepRow {r : RawRow} {row : Row} (h : prepRow r = .ok row) :
    row.salesIndex = (coerceNum r.salesIndex).getD 0 := by
  rcases prepRow_eq_ok.mp h with ⟨p, _, rfl⟩
  rfl

theorem priceRange_of_prepRow {r : RawRow} {row : Row} (h : prepRow r = .ok row) :
    row.priceRange = none := by
  rcases prepRow_eq_ok.mp h with ⟨p, _, rfl⟩
  rfl

theorem load_data_error_of_mem {rs : List RawRow} {r : RawRow} (hr : r ∈ rs)
    (h : prepRow r = .error ()) : load_data rs = .error () := by
  induction rs with
  | nil => cases hr
  | cons a as ih =>
    rcases List.mem_cons.mp hr with rfl | hmem
    · rw [load_data, h]
    · cases hpa : prepRow a <;> rw [load_data, hpa, ih hmem]

theorem load_data_forall₂ {rs : List RawRow} {t : List Row} (h : load_data rs = .ok t) :
    List.Forall₂ (fun r row => prepRow r = .ok row) rs t := by
  induction rs generalizing t with
  | nil =>
    simp [load_data] at h
    subst h
    exact .nil
  | cons a as ih =>
    cases hpa : prepRow a with
    | error e => simp [load_data, hpa] at h
    | ok row =>
      cases hla : load_data as with
      | error e => simp [load_data, hpa, hla] at h
      | ok rows =>
        simp [load_data, hpa, hla] at h
        subst h
        exact .cons hpa (ih hla)

theorem load_data_append_ok {xs ys : List RawRow} {txs tys : List Row}
    (hx : load_data xs = .ok txs) (hy : load_data ys = .ok tys) :
    load_data (xs ++ ys) = .ok (txs ++ tys) := by
  induction xs generalizing txs with
  | nil =>
    simp [load_data] at hx
    subst hx
    simpa using hy
  | cons a as ih =>
    cases hpa : prepRow a with
    | error e => simp [load_data, hpa] at hx
    | ok row =>
      cases hla : load_data as with
      | error e => simp [load_data, hpa, hla] at hx
      | ok rows =>
        simp [load_data, hpa, hla] at hx
        subst hx
        rw [List.cons_append, load_data, hpa, ih hla]
        rfl

theorem meanOfOpt_append_none (xs : List (Option ℚ)) :
    meanOfOpt (xs ++ [none]) = meanOfOpt xs := by
  simp [meanOfOpt, List.filterMap_append]

/-! ## Helper lemmas about the keyword regex fragment -/

theorem rmatchHere_lit (ks : List Char) : ∀ s, rmatchHere (ks.map RTok.lit) s = startsWithChars ks s := by
  induction ks with
  | nil => intro s; cases s <;> rfl
  | cons a as ih =>
    intro s
    cases s with
    | nil => rfl
    | cons c cs => simp [rmatchHere, startsWithChars, tokMatch, ih]

theorem rsearch_lit (ks : List Char) : ∀ s, rsearch (ks.map RTok.lit) s = isSubChars ks s := by
  intro s
  induction s with
  | nil => simp [rsearch, isSubChars, rmatchHere_lit]
  | cons c cs ih => simp [rsearch, isSubChars, rmatchHere_lit, ih]

theorem compileKw_no_dot {ks : List Char} (h : ∀ c ∈ ks, c ≠ '.') :
    compileKw ks = ks.map RTok.lit := by
  induction ks with
  | nil => rfl
  | cons a as ih =>
    have ha := h a (List.mem_cons_self a as)
    have ht := ih fun c hc => h c (List.mem_cons_of_mem a hc)
    simp only [compileKw] at ht ⊢
    simp [ha, ht]

theorem strContains_eq_containsLit {kw : String}
    (h : ∀ c ∈ lowerChars kw.toList, c ≠ '.') (text : String) :
    strContains text kw = containsLit text kw := by
  unfold strContains containsLit
  rw [compileKw_no_dot h, rsearch_lit]

/-! ## Claim C1 -/

/-- C1 counterexample: loading the spec's own three-row example — one good
row, one row whose Price string fails to parse after stripping, one row with
a malformed date — does not produce a three-row table with a missing Price;
the whole load aborts with an error. -/
theorem c1_counterexample :
    load_data [rawGood, rawBadPrice, rawBadDate] = .error () := by
  rfl

/-- C1 (amended): a Price string that fails to parse after stripping
separators and the currency marker aborts the whole `load_data` call — no
table is produced, so no row of it is recovered; per-field recovery holds
only for the date field: a row whose date fails to parse is loaded with all
other fields intact and a missing Publishing Date (its YearMonth rendering
as the string `"NaT"`). -/
theorem c1_amended (rs : List RawRow) (r : RawRow) (p : Option Int) :
    ((∃ x ∈ rs, clean_price x.price = .error ()) → load_data rs = .error ()) ∧
    (clean_price r.price = .ok p → parse_date r.pubDate = none →
      load_data [r] =
        .ok [{ title := r.title
               subtitle := r.subtitle
               author := r.author
               publisher := r.publisher
               price := p
               rating := coerceNum r.rating
               reviewCount := coerceNum r.reviewCount
               salesIndex := (coerceNum r.salesIndex).getD 0
               pubDate := none
               yearMonth := "NaT"
               priceRange := none }]) := by
  constructor
  · rintro ⟨x, hx, hcx⟩
    exact load_data_error_of_mem hx (prepRow_error_of hcx)
  · intro hp hd
    rw [load_data, load_data, prepRow, hp]
    unfold mkPrepared
    rw [hd]
    rfl

/-- C1 witness: a concrete bad-price row aborts the load, and a concrete
bad-date row loads with every other field intact. -/
theorem c1_amended_witness :
    load_data [rawBadPrice] = .error () ∧
    load_data [rawBadDate] =
      .ok [{ title := rawBadDate.title
             subtitle := rawBadDate.subtitle
             author := rawBadDate.author
             publisher := rawBadDate.publisher
             price := some 15000
             rating := coerceNum rawBadDate.rating
             reviewCount := coerceNum rawBadDate.reviewCount
             salesIndex := (coerceNum rawBadDate.salesIndex).getD 0
             pubDate := none
             yearMonth := "NaT"
             priceRange := none }] := by
  constructor
  · exact (c1_amended [rawBadPrice] rawBadPrice (some 15000)).1
      ⟨rawBadPrice, List.mem_singleton.mpr rfl, by rfl⟩
  · exact (c1_amended [] rawBadDate (some 15000)).2 (by rfl) (by rfl)

/-! ## Claim C2 -/

/-- C2: on a row whose Publishing Date fails to parse, the prepared table
has a missing Publishing Date but a PRESENT YearMonth — the literal string
`"NaT"` — and `monthly_counts` does not exclude the row: it appears as a
month bucket with key `"NaT"`. This refutes both the present-iff-present
claim and the exclusion-from-aggregation claim. -/
theorem c2_nat_bucket :
    (tableOf (load_data [rawBadDate])).map (·.pubDate) = [none] ∧
    (tableOf (load_data [rawBadDate])).map (·.yearMonth) = ["NaT"] ∧
    monthly_counts (tableOf (load_data [rawBadDate])) = [("NaT", 1)] := by
  exact ⟨by decide, by decide, by decide⟩

/-! ## Claim C3 -/

/-- C3 counterexample: the keyword `"a.c"` keeps the row titled `"axc"`
although `"a.c"` occurs literally in neither the Title nor the (empty)
Subtitle — `str.contains` performs a regular-expression search, not a
literal-substring match. -/
theorem c3_counterexample :
    keyword_filter [rowAxc] "a.c" = [rowAxc] ∧
    (containsLit rowAxc.title "a.c" || containsLit (rowAxc.subtitle.getD "") "a.c") = false := by
  exact ⟨by decide, by decide⟩

/-- C3 (amended): for every non-empty keyword free of regular-expression
metacharacters (no character of `regexMeta`), a row is kept by
`keyword_filter` iff the keyword occurs case-insensitively as a literal
substring of the Title or of the missing-as-empty Subtitle; for keywords
with metacharacters the match is a regex search instead (and some, such as
`"c++"`, even make the program raise). -/
theorem c3_amended (kw : String) (t : List Row) (r : Row) (h1 : kw ≠ "")
    (h2 : ∀ c ∈ lowerChars kw.toList, c ∉ regexMeta) :
    r ∈ keyword_filter t kw ↔
      r ∈ t ∧ (containsLit r.title kw || containsLit (r.subtitle.getD "") kw) = true := by
  have h2' : ∀ c ∈ lowerChars kw.toList, c ≠ '.' := by
    intro c hc hdot
    exact h2 c hc (by rw [hdot]; decide)
  unfold keyword_filter
  rw [if_neg h1, List.mem_filter]
  rw [strContains_eq_containsLit h2', strContains_eq_containsLit h2']

/-- C3 witness: the amended equivalence at the concrete metacharacter-free
keyword `"b"` and a one-row table. -/
theorem c3_amended_witness :
    rowB ∈ keyword_filter [rowB] "b" ↔
      rowB ∈ [rowB] ∧
        (containsLit rowB.title "b" || containsLit (rowB.subtitle.getD "") "b") = true :=
  c3_amended "b" [rowB] rowB (by decide) (by decide)

/-! ## Claim C4 -/

/-- C4: `keyword_filter` with the empty keyword is the identity on the
table — the same rows in the same order. -/
theorem c4_empty_keyword_identity (t : List Row) : keyword_filter t "" = t := by
  simp [keyword_filter]

/-! ## Claim C6 -/

/-- C6 counterexample: a raw Rating of `"12"` is stored as the present value
12, which lies outside `[0, 10]` — out-of-range ratings are not treated as
missing. -/
theorem c6_counterexample :
    (tableOf (load_data [rawBigRating])).map (·.rating) = [some 12] ∧ ¬((12 : ℚ) ≤ 10) := by
  exact ⟨by decide, by decide⟩

/-- Ratings of prepared rows, along a rowwise load relation. -/
theorem rating_map_of_forall₂ {rs : List RawRow} {t : List Row}
    (h : List.Forall₂ (fun r row => prepRow r = .ok row) rs t) :
    t.map (·.rating) = rs.map fun r => coerceNum r.rating := by
  induction h with
  | nil => rfl
  | cons hpr _ ih => simp [rating_of_prepRow hpr, ih]

/-- C6 (amended): the prepared Rating is exactly the numeric coercion of the
raw cell — non-numeric raw values become missing, and any value that parses,
in range or not, is stored unchanged; no `[0, 10]` restriction is applied. -/
theorem c6_amended (rs : List RawRow) (t : List Row) (h : load_data rs = .ok t) :
    t.map (·.rating) = rs.map fun r => coerceNum r.rating :=
  rating_map_of_forall₂ (load_data_forall₂ h)

/-- C6 witness: the amended statement evaluated on the concrete
out-of-range-rating row. -/
theorem c6_amended_witness :
    (tableOf (load_data [rawBigRating])).map (·.rating) =
      [rawBigRating].map fun r => coerceNum r.rating :=
  c6_amended [rawBigRating] (tableOf (load_data [rawBigRating])) rfl

/-! ## Claim C10 -/

/-- C10: an unparsable Sales Index string and an absent Sales Index cell
produce identical prepared rows (coercion maps the string to missing and the
zero-fill replaces it), and such a row's prepared Sales Index is the hard
zero. -/
theorem c10_sales_zero_fill (r : RawRow) (s : String) (hs : parseFloatPy s = none) :
    prepRow { r with salesIndex := some s } = prepRow { r with salesIndex := none } ∧
    ∀ row, prepRow { r with salesIndex := some s } = .ok row → row.salesIndex = 0 := by
  constructor
  · unfold prepRow
    cases hp : clean_price r.price <;> simp [hp, mkPrepared, coerceNum, hs]
  · intro row hrow
    rw [salesIndex_of_prepRow hrow]
    simp [coerceNum, hs]

/-- C10 witness: the concrete unparsable Sales Index `"N/A"` and the absent
cell agree, and the stored value is 0. -/
theorem c10_witness :
    prepRow { rawGood with salesIndex := some "N/A" } =
      prepRow { rawGood with salesIndex := none } ∧
    (rowOf (prepRow { rawGood with salesIndex := some "N/A" })).salesIndex = 0 := by
  have h := c10_sales_zero_fill rawGood "N/A" (by decide)
  exact ⟨h.1, h.2 _ rfl⟩

/-! ## Claim C5 -/

/-- C5: appending a raw row whose Sales Index, Rating and Review Count are
all missing or non-numeric: the load keeps the row, its Sales Index is the
hard zero — so it adds nothing to the Sales Index sum while still enlarging
the population that Sales Index means divide by — whereas the Rating and
Review Count means are entirely unchanged (the missing values are excluded
from those averages). The two missing-value policies differ. -/
theorem c5_missing_policies (rs : List RawRow) (r : RawRow) (t : List Row) (row : Row)
    (hs : coerceNum r.salesIndex = none) (hr : coerceNum r.rating = none)
    (hv : coerceNum r.reviewCount = none)
    (ht : load_data rs = .ok t) (hrow : prepRow r = .ok row) :
    load_data (rs ++ [r]) = .ok (t ++ [row]) ∧
    row.salesIndex = 0 ∧
    ((t ++ [row]).map (·.salesIndex)).sum = (t.map (·.salesIndex)).sum ∧
    (t ++ [row]).length = t.length + 1 ∧
    ratingMean (t ++ [row]) = ratingMean t ∧
    reviewMean (t ++ [row]) = reviewMean t := by
  have hsi : row.salesIndex = 0 := by
    rw [salesIndex_of_prepRow hrow, hs]
    rfl
  have hra : row.rating = none := by rw [rating_of_prepRow hrow, hr]
  have hrv : row.reviewCount = none := by rw [reviewCount_of_prepRow hrow, hv]
  refine ⟨?_, hsi, ?_, by simp, ?_, ?_⟩
  · exact load_data_append_ok ht (by rw [load_data, load_data, hrow])
  · simp [hsi]
  · unfold ratingMean
    rw [List.map_append, List.map_singleton, hra, meanOfOpt_append_none]
  · unfold reviewMean
    rw [List.map_append, List.map_singleton, hrv, meanOfOpt_append_none]

/-- C5 witness: the concrete good row plus the concrete all-missing row. -/
theorem c5_witness :
    load_data ([rawGood] ++ [rawNoNums]) =
      .ok (tableOf (load_data [rawGood]) ++ [rowOf (prepRow rawNoNums)]) ∧
    (rowOf (prepRow rawNoNums)).salesIndex = 0 ∧
    (((tableOf (load_data [rawGood]) ++ [rowOf (prepRow rawNoNums)]).map (·.salesIndex)).sum =
      ((tableOf (load_data [rawGood])).map (·.salesIndex)).sum) ∧
    ((tableOf (load_data [rawGood]) ++ [rowOf (prepRow rawNoNums)]).length =
      (tableOf (load_data [rawGood])).length + 1) ∧
    (ratingMean (tableOf (load_data [rawGood]) ++ [rowOf (prepRow rawNoNums)]) =
      ratingMean (tableOf (load_data [rawGood]))) ∧
    (reviewMean (tableOf (load_data [rawGood]) ++ [rowOf (prepRow rawNoNums)]) =
      reviewMean (tableOf (load_data [rawGood]))) :=
  c5_missing_policies [rawGood] rawNoNums (tableOf (load_data [rawGood]))
    (rowOf (prepRow rawNoNums)) (by decide) (by decide) (by decide) rfl rfl

/-! ## Claim C7 -/

/-- C7: the top-20-by-Sales-Index selection keeps at most 20 rows, in
weakly descending Sales Index order, and any two selected rows with equal
Sales Index appear in their original table order (stable selection); the
returned rows are exactly the tagged selection stripped of its position
tags. -/
theorem c7_top_sales (t : List Row) :
    (top_salesIdx t).length ≤ 20 ∧
    (top_salesIdx t).Pairwise (fun a b => b.2.salesIndex ≤ a.2.salesIndex) ∧
    (top_salesIdx t).Pairwise (fun a b => a.2.salesIndex = b.2.salesIndex → a.1 < b.1) ∧
    top_sales t = (top_salesIdx t).map Prod.snd := by
  have hsorted : (List.insertionSort nlargestRel t.enum).Pairwise nlargestRel :=
    List.sorted_insertionSort nlargestRel t.enum
  have hperm : (List.insertionSort nlargestRel t.enum).Perm t.enum :=
    List.perm_insertionSort nlargestRel t.enum
  have hnodupEnum : (t.enum.map Prod.fst).Nodup := by
    rw [List.enum_map_fst]
    exact List.nodup_range _
  have hnodup : ((List.insertionSort nlargestRel t.enum).map Prod.fst).Nodup :=
    ((hperm.map Prod.fst).nodup_iff).mpr hnodupEnum
  have hne : (List.insertionSort nlargestRel t.enum).Pairwise (fun a b => a.1 ≠ b.1) :=
    List.pairwise_map.mp hnodup
  have htake : (top_salesIdx t).Pairwise (fun a b => nlargestRel a b ∧ a.1 ≠ b.1) :=
    (hsorted.and hne).sublist (List.take_sublist 20 _)
  refine ⟨?_, ?_, ?_, rfl⟩
  · rw [top_salesIdx, List.length_take]
    exact min_le_left _ _
  · refine htake.imp fun h => ?_
    rcases h.1 with hlt | ⟨heq, _⟩
    · exact le_of_lt hlt
    · exact le_of_eq heq.symm
  · refine htake.imp fun h heq => ?_
    rcases h.1 with hlt | ⟨_, hle⟩
    · exact absurd heq (ne_of_gt hlt)
    · exact lt_of_le_of_ne hle h.2

/-! ## Claim C9 -/

/-- Price-range tags of prepared rows, along a rowwise load relation. -/
theorem priceRange_map_of_forall₂ {rs : List RawRow} {t : List Row}
    (h : List.Forall₂ (fun r row => prepRow r = .ok row) rs t) :
    t.map (·.priceRange) = List.replicate t.length none := by
  induction h with
  | nil => rfl
  | cons hpr _ ih => simp [priceRange_of_prepRow hpr, ih, List.replicate_succ]

/-- C9: the Price & Rating view's derived price-bucket column is scoped to
its own run. A first interaction populates the cache with the loaded table;
after the Price & Rating view runs, the cache still holds exactly that
table; the next interaction's view consumes that cached table (not the
price-bucketed frame), and the cached table carries no price-bucket
values at all. -/
theorem c9_view_scoped (raw : List RawRow) (t : List Row) (v₂ : View)
    (h : load_data raw = .ok t) :
    (scriptRun raw ⟨none⟩ .priceRating).1.cacheSlot = some t ∧
    (scriptRun raw ((scriptRun raw ⟨none⟩ .priceRating).1) v₂).1.cacheSlot = some t ∧
    (scriptRun raw ((scriptRun raw ⟨none⟩ .priceRating).1) v₂).2 = .ok (runView v₂ t) ∧
    t.map (·.priceRange) = List.replicate t.length none := by
  have h1 : scriptRun raw ⟨none⟩ .priceRating = (⟨some t⟩, .ok (runView .priceRating t)) := by
    simp [scriptRun, h]
  rw [h1]
  exact ⟨rfl, rfl, rfl, priceRange_map_of_forall₂ (load_data_forall₂ h)⟩

/-- C9 witness: the scoping facts at a concrete one-row load followed by the
Home view. -/
theorem c9_witness :
    (scriptRun [rawGood] ⟨none⟩ .priceRating).1.cacheSlot = some (tableOf (load_data [rawGood])) ∧
    (scriptRun [rawGood] ((scriptRun [rawGood] ⟨none⟩ .priceRating).1) .home).1.cacheSlot =
      some (tableOf (load_data [rawGood])) ∧
    (scriptRun [rawGood] ((scriptRun [rawGood] ⟨none⟩ .priceRating).1) .home).2 =
      .ok (runView .home (tableOf (load_data [rawGood]))) ∧
    (tableOf (load_data [rawGood])).map (·.priceRange) =
      List.replicate (tableOf (load_data [rawGood])).length none :=
  c9_view_scoped [rawGood] (tableOf (load_data [rawGood])) .home rfl

/-! ## Claim C8: correlation lemmas -/

theorem map_fst_swap (ps : List (ℚ × ℚ)) : (ps.map Prod.swap).map Prod.fst = ps.map Prod.snd := by
  simp [List.map_map, Function.comp]

theorem map_snd_swap (ps : List (ℚ × ℚ)) : (ps.map Prod.swap).map Prod.snd = ps.map Prod.fst := by
  simp [List.map_map, Function.comp]

theorem sxyOf_swap (ps : List (ℚ × ℚ)) : sxyOf (ps.map Prod.swap) = sxyOf ps := by
  unfold sxyOf
  rw [map_fst_swap, map_snd_swap, List.map_map]
  have hfun : ((fun p : ℚ × ℚ =>
        (p.1 - meanOf (ps.map Prod.snd)) * (p.2 - meanOf (ps.map Prod.fst))) ∘ Prod.swap) =
      fun p : ℚ × ℚ => (p.1 - meanOf (ps.map Prod.fst)) * (p.2 - meanOf (ps.map Prod.snd)) := by
    funext p
    simp only [Function.comp_apply, Prod.fst_swap, Prod.snd_swap]
    ring
  rw [hfun]

theorem sxxOf_swap (ps : List (ℚ × ℚ)) : sxxOf (ps.map Prod.swap) = syyOf ps := by
  unfold sxxOf syyOf
  rw [map_fst_swap, List.map_map]
  have hfun : ((fun p : ℚ × ℚ => (p.1 - meanOf (ps.map Prod.snd)) ^ 2) ∘ Prod.swap) =
      fun p : ℚ × ℚ => (p.2 - meanOf (ps.map Prod.snd)) ^ 2 := by
    funext p
    simp [Function.comp_apply, Prod.fst_swap]
  rw [hfun]

theorem syyOf_swap (ps : List (ℚ × ℚ)) : syyOf (ps.map Prod.swap) = sxxOf ps := by
  unfold syyOf sxxOf
  rw [map_snd_swap, List.map_map]
  have hfun : ((fun p : ℚ × ℚ => (p.2 - meanOf (ps.map Prod.fst)) ^ 2) ∘ Prod.swap) =
      fun p : ℚ × ℚ => (p.1 - meanOf (ps.map Prod.fst)) ^ 2 := by
    funext p
    simp [Function.comp_apply, Prod.snd_swap]
  rw [hfun]

theorem pearson_swap (ps : List (ℚ × ℚ)) : pearson (ps.map Prod.swap) = pearson ps := by
  unfold pearson
  rw [sxyOf_swap, sxxOf_swap, syyOf_swap]
  by_cases h : syyOf ps * sxxOf ps = 0
  · rw [if_pos h, if_pos (by rwa [mul_comm])]
  · rw [if_neg h, if_neg fun hc => h (by rwa [mul_comm] at hc)]
    rw [mul_comm ((syyOf ps : ℝ)) ((sxxOf ps : ℝ))]

theorem pairsOf_swap (t : List Row) (c₁ c₂ : Col) :
    pairsOf t c₂ c₁ = (pairsOf t c₁ c₂).map Prod.swap := by
  induction t with
  | nil => rfl
  | cons r rs ih =>
    simp only [pairsOf] at ih ⊢
    cases h₁ : colVal c₁ r <;> cases h₂ : colVal c₂ r <;>
      simp [List.filterMap_cons, h₁, h₂, ih]

theorem pairsOf_diag (t : List Row) (c : Col) :
    pairsOf t c c = (t.filterMap (colVal c)).map fun a => (a, a) := by
  induction t with
  | nil => rfl
  | cons r rs ih =>
    simp only [pairsOf] at ih ⊢
    cases h : colVal c r <;> simp [List.filterMap_cons, h, ih]

theorem pairsOf_eq_spec (t : List Row) (c₁ c₂ : Col) :
    pairsOf t c₁ c₂ =
      (bothPresentRows t c₁ c₂).map fun r => ((colVal c₁ r).getD 0, (colVal c₂ r).getD 0) := by
  induction t with
  | nil => rfl
  | cons r rs ih =>
    simp only [pairsOf, bothPresentRows] at ih ⊢
    cases h₁ : colVal c₁ r <;> cases h₂ : colVal c₂ r <;>
      simp [List.filterMap_cons, List.filter_cons, h₁, h₂, ih]

theorem map_fst_diag (xs : List ℚ) : ((xs.map fun a => (a, a)).map Prod.fst) = xs := by
  rw [List.map_map]
  have hfun : (Prod.fst ∘ fun a : ℚ => (a, a)) = id := by
    funext a
    rfl
  rw [hfun, List.map_id]

theorem map_snd_diag (xs : List ℚ) : ((xs.map fun a => (a, a)).map Prod.snd) = xs := by
  rw [List.map_map]
  have hfun : (Prod.snd ∘ fun a : ℚ => (a, a)) = id := by
    funext a
    rfl
  rw [hfun, List.map_id]

theorem sxyOf_diag (xs : List ℚ) :
    sxyOf (xs.map fun a => (a, a)) = sxxOf (xs.map fun a => (a, a)) := by
  unfold sxyOf sxxOf
  rw [map_fst_diag, map_snd_diag, List.map_map, List.map_map]
  have hfun : ((fun p : ℚ × ℚ => (p.1 - meanOf xs) * (p.2 - meanOf xs)) ∘ fun a : ℚ => (a, a)) =
      ((fun p : ℚ × ℚ => (p.1 - meanOf xs) ^ 2) ∘ fun a : ℚ => (a, a)) := by
    funext a
    simp only [Function.comp_apply]
    ring
  rw [hfun]

theorem syyOf_diag (xs : List ℚ) :
    syyOf (xs.map fun a => (a, a)) = sxxOf (xs.map fun a => (a, a)) := by
  unfold syyOf sxxOf
  rw [map_fst_diag, map_snd_diag, List.map_map, List.map_map]
  have hfun : ((fun p : ℚ × ℚ => (p.2 - meanOf xs) ^ 2) ∘ fun a : ℚ => (a, a)) =
      ((fun p : ℚ × ℚ => (p.1 - meanOf xs) ^ 2) ∘ fun a : ℚ => (a, a)) := by
    funext a
    rfl
  rw [hfun]

theorem sxxOf_nonneg (ps : List (ℚ × ℚ)) : 0 ≤ sxxOf ps := by
  unfold sxxOf
  apply List.sum_nonneg
  intro x hx
  rcases List.mem_map.mp hx with ⟨p, _, rfl⟩
  positivity

theorem pearson_diag (xs : List ℚ) (h : sxxOf (xs.map fun a => (a, a)) ≠ 0) :
    pearson (xs.map fun a => (a, a)) = some 1 := by
  have h1 := sxyOf_diag xs
  have h2 := syyOf_diag xs
  have hpos : 0 ≤ sxxOf (xs.map fun a => (a, a)) := sxxOf_nonneg _
  unfold pearson
  rw [h1, h2]
  rw [if_neg fun hc => h (mul_self_eq_zero.mp hc)]
  congr 1
  rw [Real.sqrt_mul_self (by exact_mod_cast hpos)]
  exact div_self (by exact_mod_cast h)

/-- C8: the correlation matrix of the four numeric columns is symmetric;
its diagonal entry for any column with non-zero variance (non-zero centered
sum of squares over its present values) is exactly 1; and every entry is the
Pearson correlation over the pairwise-complete observations — the rows where
both paired columns are present, regardless of the other columns. -/
theorem c8_correlation (t : List Row) (c₁ c₂ c : Col) :
    corrEntry t c₁ c₂ = corrEntry t c₂ c₁ ∧
    (colSS t c ≠ 0 → corrEntry t c c = some 1) ∧
    corrEntry t c₁ c₂ = pearsonPairwiseComplete t c₁ c₂ := by
  refine ⟨?_, ?_, ?_⟩
  · unfold corrEntry
    rw [pairsOf_swap t c₁ c₂, pearson_swap]
  · intro h
    unfold colSS at h
    rw [pairsOf_diag] at h
    unfold corrEntry
    rw [pairsOf_diag]
    exact pearson_diag _ h
  · unfold corrEntry pearsonPairwiseComplete
    rw [pairsOf_eq_spec]

/-- C8 witness: on the concrete two-row table the Price column has non-zero
variance and the diagonal correlation entry is exactly 1. -/
theorem c8_witness :
    colSS corrTable Col.price ≠ 0 ∧
    corrEntry corrTable Col.price Col.price = some 1 := by
  have h : colSS corrTable Col.price ≠ 0 := by
    norm_num [colSS, sxxOf, meanOf, pairsOf, colVal, corrTable, defaultRow, List.filterMap_cons]
  exact ⟨h, (c8_correlation corrTable Col.price Col.price Col.price).2.1 h⟩

end BookDash
